import Mathlib

/-
  Verification of the dmfs manifest image format (src/lib.rs).

  The embedding models byte buffers as List Nat.  The byterider Bytes
  collaborator (an external crate) is modelled from the specification of its
  interface: little-endian integer appends and bounds-checked reads,
  null-terminated string encode and decode, and 4/8-byte alignment padding.
  The manifest encoder, decoder iterator, type-code tables and error type are
  translated directly from src/lib.rs.
-/

namespace Dmfs

/-- Modelled from the spec: little-endian byte image of a u32 value, as the
byterider Bytes collaborator appends with add_u32. -/
def u32Bytes (v : Nat) : List Nat :=
  [v % 256, v / 256 % 256, v / 65536 % 256, v / 16777216 % 256]

/-- Modelled from the spec: little-endian byte image of a u64 value (add_u64). -/
def u64Bytes (v : Nat) : List Nat :=
  [v % 256, v / 256 % 256, v / 65536 % 256, v / 16777216 % 256,
   v / 4294967296 % 256, v / 1099511627776 % 256, v / 281474976710656 % 256,
   v / 72057594037927936 % 256]

/-- Modelled from the spec: append a single byte to the buffer (add_u8). -/
def add_u8 (b : List Nat) (v : Nat) : List Nat := b ++ [v]

/-- Modelled from the spec: append a u32 in little-endian order (add_u32). -/
def add_u32 (b : List Nat) (v : Nat) : List Nat := b ++ u32Bytes v

/-- Modelled from the spec: append a u64 in little-endian order (add_u64). -/
def add_u64 (b : List Nat) (v : Nat) : List Nat := b ++ u64Bytes v

/-- Modelled from the spec: append the raw bytes of a string followed by a
single zero byte (add_null_term_string). -/
def add_null_term_string (b : List Nat) (s : List Nat) : List Nat := b ++ s ++ [0]

/-- Modelled from the spec: the next k-aligned offset at or after n. -/
def alignTo (k n : Nat) : Nat := (n + k - 1) / k * k

/-- Modelled from the spec: next 4-byte aligned offset at or after n. -/
def align_to_next_u32 (n : Nat) : Nat := alignTo 4 n

/-- Modelled from the spec: next 8-byte aligned offset at or after n. -/
def align_to_next_u64 (n : Nat) : Nat := alignTo 8 n

/-- A run of zero bytes. -/
def zeros (n : Nat) : List Nat := List.replicate n 0

/-- Modelled from the spec: pad the buffer with zero bytes up to the next
4-byte boundary (pad_to_u32). -/
def pad_to_u32 (b : List Nat) : List Nat :=
  b ++ zeros (align_to_next_u32 b.length - b.length)

/-- Modelled from the spec: pad the buffer with zero bytes up to the next
8-byte boundary (pad_to_u64). -/
def pad_to_u64 (b : List Nat) : List Nat :=
  b ++ zeros (align_to_next_u64 b.length - b.length)

/-- Little-endian value of a list of bytes. -/
def leVal : List Nat → Nat
  | [] => 0
  | x :: rest => x + 256 * leVal rest

/-- Modelled from the spec: bounds-checked u32 read at a byte offset; none when
the read would run past the end of the buffer (read_u32). -/
def read_u32 (b : List Nat) (offset : Nat) : Option Nat :=
  if 4 ≤ (b.drop offset).length then some (leVal ((b.drop offset).take 4)) else none

/-- Modelled from the spec: bounds-checked u64 read at a byte offset (read_u64). -/
def read_u64 (b : List Nat) (offset : Nat) : Option Nat :=
  if 8 ≤ (b.drop offset).length then some (leVal ((b.drop offset).take 8)) else none

/-- The bytes before the first zero byte of a list, or none when no zero byte
occurs before the end. -/
def takeUntilNull : List Nat → Option (List Nat)
  | [] => none
  | x :: rest => if x = 0 then some [] else (takeUntilNull rest).map (fun s => x :: s)

/-- Modelled from the spec: read a null-terminated string starting at a byte
offset, yielding no value when no terminator is found (read_null_term_string). -/
def read_null_term_string (b : List Nat) (offset : Nat) : Option (List Nat) :=
  takeUntilNull (b.drop offset)

/-- MANIFEST_MAGIC from src/lib.rs. -/
def MANIFEST_MAGIC : Nat := 0xD105C001

/-- MANIFEST_OBJECT_MAGIC from src/lib.rs. -/
def MANIFEST_OBJECT_MAGIC : Nat := 0xD1015D4D

/-- MANIFEST_VERSION from src/lib.rs. -/
def MANIFEST_VERSION : Nat := 2

/-- ManifestError from src/lib.rs. -/
inductive ManifestError
  | MalformedHeader
  | BadMagic
  | VersionMismatch
  | CantUseRegionHere
deriving DecidableEq

/-- ManifestObjectType from src/lib.rs. -/
inductive ManifestObjectType
  | BootMsg
  | SystemService
  | GuestOS
  | Unknown
  | EndOfList
deriving DecidableEq

/-- ManifestObjectType::to_integer from src/lib.rs. -/
def ManifestObjectType.to_integer : ManifestObjectType → Nat
  | ManifestObjectType.EndOfList => 0
  | ManifestObjectType.BootMsg => 1
  | ManifestObjectType.SystemService => 2
  | ManifestObjectType.GuestOS => 3
  | ManifestObjectType.Unknown => 4

/-- ManifestObjectType::from_integer from src/lib.rs. -/
def ManifestObjectType.from_integer (nr : Nat) : ManifestObjectType :=
  match nr with
  | 0 => ManifestObjectType.EndOfList
  | 1 => ManifestObjectType.BootMsg
  | 2 => ManifestObjectType.SystemService
  | 3 => ManifestObjectType.GuestOS
  | _ => ManifestObjectType.Unknown

/-- ManifestObjectData from src/lib.rs: owned bytes, or a region of the image. -/
inductive ManifestObjectData
  | Bytes : List Nat → ManifestObjectData
  | Region : Nat → Nat → ManifestObjectData
deriving DecidableEq

/-- ManifestObjectData::len from src/lib.rs. -/
def ManifestObjectData.len : ManifestObjectData → Nat
  | ManifestObjectData.Bytes v => v.length
  | ManifestObjectData.Region s e => e - s

/-- ManifestObject from src/lib.rs.  Strings are represented by their UTF-8
byte sequences. -/
structure ManifestObject where
  objtype : ManifestObjectType
  name : List Nat
  descr : List Nat
  properties : List (List Nat)
  data : ManifestObjectData
deriving DecidableEq

/-- Manifest from src/lib.rs. -/
structure Manifest where
  objects : List ManifestObject
deriving DecidableEq

/-- The body of the per-object loop of Manifest::to_image from src/lib.rs. -/
def encodeObject (b : List Nat) (object : ManifestObject) : Except ManifestError (List Nat) :=
  let b := add_u32 b MANIFEST_OBJECT_MAGIC
  let b := add_u32 b object.objtype.to_integer
  let b := add_u64 b object.data.len
  let b := add_null_term_string b object.name
  let b := add_null_term_string b object.descr
  let b := pad_to_u32 b
  let b := add_u32 b object.properties.length
  let b := object.properties.foldl add_null_term_string b
  let b := pad_to_u64 b
  match object.data with
  | ManifestObjectData.Bytes bytes => Except.ok (pad_to_u64 (bytes.foldl add_u8 b))
  | ManifestObjectData.Region _ _ => Except.error ManifestError.CantUseRegionHere

/-- The per-object loop of Manifest::to_image from src/lib.rs. -/
def encodeObjects (b : List Nat) : List ManifestObject → Except ManifestError (List Nat)
  | [] => Except.ok b
  | o :: rest =>
    match encodeObject b o with
    | Except.error e => Except.error e
    | Except.ok b2 => encodeObjects b2 rest

/-- Manifest::to_image from src/lib.rs: magic and version header, each object
in insertion order, then the EndOfList bookend. -/
def to_image (m : Manifest) : Except ManifestError (List Nat) :=
  match encodeObjects (add_u32 (add_u32 [] MANIFEST_MAGIC) MANIFEST_VERSION) m.objects with
  | Except.error e => Except.error e
  | Except.ok b => Except.ok (add_u32 b ManifestObjectType.EndOfList.to_integer)

/-- ManifestImageIter from src/lib.rs. -/
structure ManifestImageIter where
  offset : Nat
  bytes : List Nat
deriving DecidableEq

/-- ManifestImageIter::from_slice from src/lib.rs. -/
def from_slice (blob : List Nat) : Except ManifestError ManifestImageIter :=
  match read_u32 blob 0 with
  | some magic =>
    if magic ≠ MANIFEST_MAGIC then Except.error ManifestError.BadMagic
    else
      match read_u32 blob 4 with
      | some version =>
        if version > MANIFEST_VERSION then Except.error ManifestError.VersionMismatch
        else Except.ok { offset := 8, bytes := blob }
      | none => Except.error ManifestError.MalformedHeader
  | none => Except.error ManifestError.MalformedHeader

/-- The property-reading loop of ManifestImageIter::next from src/lib.rs:
read a given number of null-terminated strings, advancing the offset past each
string and its terminator; none when any read fails. -/
def readProps (b : List Nat) : Nat → Nat → Option (List (List Nat) × Nat)
  | offset, 0 => some ([], offset)
  | offset, n + 1 =>
    match read_null_term_string b offset with
    | none => none
    | some s =>
      match readProps b (offset + (s.length + 1)) n with
      | none => none
      | some (ps, o2) => some (s :: ps, o2)

/-- ManifestImageIter::next from src/lib.rs, with the mutation of self made
explicit: the result pairs the optional parsed object with the updated
iterator state. -/
def ManifestImageIter.next (self : ManifestImageIter) : Option ManifestObject × ManifestImageIter :=
  match read_u32 self.bytes self.offset with
  | none => (none, self)
  | some magic =>
    if magic ≠ MANIFEST_OBJECT_MAGIC then (none, self)
    else
      match read_u32 self.bytes (self.offset + 4) with
      | none => (none, self)
      | some tnr =>
        if ManifestObjectType.from_integer tnr = ManifestObjectType.EndOfList then (none, self)
        else
          match read_u64 self.bytes (self.offset + 4 + 4) with
          | none => (none, self)
          | some obj_size =>
            match read_null_term_string self.bytes (self.offset + 4 + 4 + 8) with
            | none => (none, self)
            | some obj_name =>
              match read_null_term_string self.bytes (self.offset + 4 + 4 + 8 + (obj_name.length + 1)) with
              | none => (none, self)
              | some obj_desc =>
                match read_u32 self.bytes (align_to_next_u32 (self.offset + 4 + 4 + 8 + (obj_name.length + 1) + (obj_desc.length + 1))) with
                | none => (none, self)
                | some obj_property_count =>
                  match readProps self.bytes (align_to_next_u32 (self.offset + 4 + 4 + 8 + (obj_name.length + 1) + (obj_desc.length + 1)) + 4) obj_property_count with
                  | none => (none, self)
                  | some (obj_props, off3) =>
                    (some { objtype := ManifestObjectType.from_integer tnr, name := obj_name,
                            descr := obj_desc, properties := obj_props,
                            data := ManifestObjectData.Region (align_to_next_u64 off3) (align_to_next_u64 off3 + obj_size) },
                     { offset := align_to_next_u64 (align_to_next_u64 off3 + obj_size), bytes := self.bytes })

/-- Repeatedly call next, collecting the yielded objects, with fuel bounding
the number of calls. -/
def drive : ManifestImageIter → Nat → List ManifestObject
  | _, 0 => []
  | it, fuel + 1 =>
    match it.next with
    | (some o, it2) => o :: drive it2 fuel
    | (none, _) => []

/-- The state after n further calls to next, paired with the result of the
last of those calls. -/
def nthNext : ManifestImageIter → Nat → Option ManifestObject × ManifestImageIter
  | it, 0 => it.next
  | it, n + 1 => nthNext (it.next).2 n

/-- The concatenation of a list of strings, each followed by its terminator. -/
def ntsChain : List (List Nat) → List Nat
  | [] => []
  | p :: ps => p ++ 0 :: ntsChain ps

/-- The owned content of an object, empty for a region. -/
def contentOf : ManifestObjectData → List Nat
  | ManifestObjectData.Bytes v => v
  | ManifestObjectData.Region _ _ => []

/-- Offset of an object's content bytes relative to the start of its record,
for a record that begins at an 8-byte aligned image offset. -/
def contOff (o : ManifestObject) : Nat :=
  alignTo 8 (alignTo 4 (18 + o.name.length + o.descr.length) + 4 + (ntsChain o.properties).length)

/-- The byte image of one object record, for a record that begins at an
8-byte aligned image offset. -/
def encObjA (o : ManifestObject) : List Nat :=
  u32Bytes MANIFEST_OBJECT_MAGIC ++
  u32Bytes o.objtype.to_integer ++
  u64Bytes o.data.len ++
  o.name ++ [0] ++
  o.descr ++ [0] ++
  zeros (alignTo 4 (18 + o.name.length + o.descr.length) - (18 + o.name.length + o.descr.length)) ++
  u32Bytes o.properties.length ++
  ntsChain o.properties ++
  zeros (contOff o - (alignTo 4 (18 + o.name.length + o.descr.length) + 4 + (ntsChain o.properties).length)) ++
  contentOf o.data ++
  zeros (alignTo 8 (contOff o + o.data.len) - (contOff o + o.data.len))

/-- The byte image of a list of object records. -/
def encList : List ManifestObject → List Nat
  | [] => []
  | o :: os => encObjA o ++ encList os

/-- Whether an object's content source is owned bytes. -/
def dataIsBytes : ManifestObjectData → Bool
  | ManifestObjectData.Bytes _ => true
  | ManifestObjectData.Region _ _ => false

/-- An object the encoder accepts and the decoder reproduces: owned content,
no interior null bytes in its strings, field-width bounds on the property
count and content length, and not the reserved EndOfList type. -/
def validObj (o : ManifestObject) : Prop :=
  dataIsBytes o.data = true ∧ 0 ∉ o.name ∧ 0 ∉ o.descr ∧ (∀ p ∈ o.properties, 0 ∉ p) ∧
  o.properties.length < 4294967296 ∧ o.data.len < 18446744073709551616 ∧
  o.objtype ≠ ManifestObjectType.EndOfList

instance (o : ManifestObject) : Decidable (validObj o) := by
  unfold validObj; infer_instance

/-- A manifest all of whose objects are valid. -/
def validManifest (m : Manifest) : Prop := ∀ o ∈ m.objects, validObj o

instance (m : Manifest) : Decidable (validManifest m) := by
  unfold validManifest; infer_instance

/-- The hypotheses of claim C1 exactly as the claim states them: every object
has an owned-bytes content source and no interior null bytes in its name,
description or property strings. -/
def ownedNoNulls (m : Manifest) : Prop :=
  ∀ o ∈ m.objects, dataIsBytes o.data = true ∧ 0 ∉ o.name ∧ 0 ∉ o.descr ∧ ∀ p ∈ o.properties, 0 ∉ p

instance (m : Manifest) : Decidable (ownedNoNulls m) := by
  unfold ownedNoNulls; infer_instance

/-- A decoded object matches a source object when the scalar fields agree and
its region denotes exactly the source object's content bytes in the image. -/
def objMatches (img : List Nat) (o o2 : ManifestObject) : Prop :=
  o2.objtype = o.objtype ∧ o2.name = o.name ∧ o2.descr = o.descr ∧
  o2.properties = o.properties ∧
  ∃ s e v, o.data = ManifestObjectData.Bytes v ∧ o2.data = ManifestObjectData.Region s e ∧
    e = s + v.length ∧ (img.drop s).take v.length = v

@[simp] lemma length_u32Bytes (v : Nat) : (u32Bytes v).length = 4 := rfl

@[simp] lemma length_u64Bytes (v : Nat) : (u64Bytes v).length = 8 := rfl

@[simp] lemma length_zeros (n : Nat) : (zeros n).length = n := by simp [zeros]

lemma le_alignTo4 (n : Nat) : n ≤ alignTo 4 n := by unfold alignTo; omega

lemma le_alignTo8 (n : Nat) : n ≤ alignTo 8 n := by unfold alignTo; omega

lemma alignTo4_mod (n : Nat) : alignTo 4 n % 4 = 0 := by unfold alignTo; omega

lemma alignTo8_mod (n : Nat) : alignTo 8 n % 8 = 0 := by unfold alignTo; omega

lemma alignTo4_add (m n : Nat) (h : m % 4 = 0) : alignTo 4 (m + n) = m + alignTo 4 n := by
  unfold alignTo; omega

lemma alignTo8_add (m n : Nat) (h : m % 8 = 0) : alignTo 8 (m + n) = m + alignTo 8 n := by
  unfold alignTo; omega

lemma drop_shift {B x s : List Nat} {off c : Nat} (h : B.drop off = x ++ s)
    (hc : x.length = c) : B.drop (off + c) = s := by
  have h2 : (B.drop off).drop c = B.drop (off + c) := by
    rw [List.drop_drop, Nat.add_comm]
  rw [← h2, h, ← hc, List.drop_left]

lemma read_u32_of_drop {B s : List Nat} {off v : Nat} (h : B.drop off = u32Bytes v ++ s) :
    read_u32 B off = some (v % 4294967296) := by
  unfold read_u32
  rw [h, if_pos (by simp)]
  have ht : (u32Bytes v ++ s).take 4 = u32Bytes v := by
    rw [show (4 : Nat) = (u32Bytes v).length from rfl, List.take_left]
  rw [ht]
  refine congrArg some ?_
  simp only [u32Bytes, leVal]
  omega

lemma read_u64_of_drop {B s : List Nat} {off v : Nat} (h : B.drop off = u64Bytes v ++ s) :
    read_u64 B off = some (v % 18446744073709551616) := by
  unfold read_u64
  rw [h, if_pos (by simp)]
  have ht : (u64Bytes v ++ s).take 8 = u64Bytes v := by
    rw [show (8 : Nat) = (u64Bytes v).length from rfl, List.take_left]
  rw [ht]
  refine congrArg some ?_
  simp only [u64Bytes, leVal]
  omega

lemma takeUntilNull_append {s : List Nat} (r : List Nat) (hs : 0 ∉ s) :
    takeUntilNull (s ++ 0 :: r) = some s := by
  induction s with
  | nil => simp [takeUntilNull]
  | cons a as ih =>
    have ha : a ≠ 0 := fun e => hs (by rw [e]; exact List.mem_cons_self 0 as)
    have has : 0 ∉ as := fun m => hs (List.mem_cons_of_mem a m)
    simp [takeUntilNull, ha, ih has]

lemma read_nts_of_drop {B s r : List Nat} {off : Nat} (h : B.drop off = s ++ 0 :: r)
    (hs : 0 ∉ s) : read_null_term_string B off = some s := by
  unfold read_null_term_string
  rw [h]
  exact takeUntilNull_append r hs

lemma read_u32_short {B : List Nat} {off : Nat} (h : B.length < off + 4) :
    read_u32 B off = none := by
  unfold read_u32
  rw [if_neg]
  simp only [List.length_drop]
  omega

lemma to_integer_lt (t : ManifestObjectType) : t.to_integer < 4294967296 := by
  cases t <;> decide

lemma from_to (t : ManifestObjectType) :
    ManifestObjectType.from_integer t.to_integer = t := by
  cases t <;> rfl

lemma readProps_of_drop (props : List (List Nat)) : ∀ {B r : List Nat} {off : Nat},
    B.drop off = ntsChain props ++ r → (∀ p ∈ props, 0 ∉ p) →
    readProps B off props.length = some (props, off + (ntsChain props).length) := by
  induction props with
  | nil =>
    intro B r off h hp
    simp [readProps, ntsChain]
  | cons p ps ih =>
    intro B r off h hp
    have hchain : B.drop off = p ++ 0 :: (ntsChain ps ++ r) := by
      simpa [ntsChain, List.append_assoc] using h
    have hrd : read_null_term_string B off = some p :=
      read_nts_of_drop hchain (hp p (List.mem_cons_self p ps))
    have hsplit : B.drop off = (p ++ [0]) ++ (ntsChain ps ++ r) := by
      simpa [List.append_assoc] using hchain
    have hdrop2 : B.drop (off + (p.length + 1)) = ntsChain ps ++ r :=
      drop_shift hsplit (by simp)
    have hps := ih hdrop2 (fun q hq => hp q (List.mem_cons_of_mem p hq))
    show readProps B off (ps.length + 1) = _
    rw [readProps, hrd]
    dsimp only
    rw [hps]
    refine congrArg some ?_
    refine Prod.ext rfl ?_
    simp only [ntsChain, List.length_append, List.length_cons]
    omega

lemma app_congr {xs ys zs : List Nat} (h : ys = zs) : xs ++ ys = xs ++ zs := by rw [h]

lemma zeros_app_congr {m n : Nat} {ys zs : List Nat} (hm : m = n) (h : ys = zs) :
    zeros m ++ ys = zeros n ++ zs := by rw [hm, h]

lemma foldl_add_null_term_string (ps : List (List Nat)) : ∀ b : List Nat,
    ps.foldl add_null_term_string b = b ++ ntsChain ps := by
  induction ps with
  | nil => intro b; simp [ntsChain]
  | cons p ps ih =>
    intro b
    simp [List.foldl_cons, add_null_term_string, ih, ntsChain, List.append_assoc]

lemma foldl_add_u8 (v : List Nat) : ∀ b : List Nat, v.foldl add_u8 b = b ++ v := by
  induction v with
  | nil => intro b; simp
  | cons x xs ih =>
    intro b
    simp [List.foldl_cons, add_u8, ih, List.append_assoc]

lemma pad_to_u32_append (b c : List Nat) (h : b.length % 4 = 0) :
    pad_to_u32 (b ++ c) = b ++ (c ++ zeros (alignTo 4 c.length - c.length)) := by
  unfold pad_to_u32 align_to_next_u32
  rw [List.length_append, alignTo4_add b.length c.length h, List.append_assoc]
  refine congrArg (b ++ ·) (congrArg (c ++ ·) (congrArg zeros ?_))
  omega

lemma pad_to_u64_append (b c : List Nat) (h : b.length % 8 = 0) :
    pad_to_u64 (b ++ c) = b ++ (c ++ zeros (alignTo 8 c.length - c.length)) := by
  unfold pad_to_u64 align_to_next_u64
  rw [List.length_append, alignTo8_add b.length c.length h, List.append_assoc]
  refine congrArg (b ++ ·) (congrArg (c ++ ·) (congrArg zeros ?_))
  omega

lemma encObjA_length {o : ManifestObject} {v : List Nat}
    (hd : o.data = ManifestObjectData.Bytes v) :
    (encObjA o).length = alignTo 8 (contOff o + v.length) := by
  simp only [encObjA, contOff, hd, contentOf, ManifestObjectData.len, List.length_append,
    length_u32Bytes, length_u64Bytes, length_zeros, List.length_cons, List.length_nil, alignTo]
  omega

lemma encObjA_mod8 {o : ManifestObject} {v : List Nat}
    (hd : o.data = ManifestObjectData.Bytes v) : (encObjA o).length % 8 = 0 := by
  rw [encObjA_length hd]
  exact alignTo8_mod _

lemma encodeObject_eq {o : ManifestObject} {v : List Nat} (b : List Nat)
    (hd : o.data = ManifestObjectData.Bytes v) (h8 : b.length % 8 = 0) :
    encodeObject b o = Except.ok (b ++ encObjA o) := by
  have h4 : b.length % 4 = 0 := by omega
  unfold encodeObject
  rw [hd]
  dsimp only
  rw [foldl_add_null_term_string, foldl_add_u8]
  simp only [add_u32, add_u64, add_null_term_string, List.append_assoc]
  simp only [ManifestObjectData.len]
  rw [pad_to_u32_append b _ h4]
  simp only [List.append_assoc]
  rw [pad_to_u64_append b _ h8]
  simp only [List.append_assoc]
  rw [pad_to_u64_append b _ h8]
  simp only [encObjA, contOff, hd, contentOf, ManifestObjectData.len, List.append_assoc]
  simp only [List.length_append, length_u32Bytes, length_u64Bytes, length_zeros,
    List.length_cons, List.length_nil]
  refine congrArg Except.ok ?_
  refine app_congr ?_
  refine app_congr ?_
  refine app_congr ?_
  refine app_congr ?_
  refine app_congr ?_
  refine app_congr ?_
  refine app_congr ?_
  refine app_congr ?_
  refine zeros_app_congr (by unfold alignTo; omega) ?_
  refine app_congr ?_
  refine app_congr ?_
  refine zeros_app_congr (by unfold alignTo; omega) ?_
  refine app_congr ?_
  exact congrArg zeros (by unfold alignTo; omega)

lemma data_bytes_of_isBytes {o : ManifestObject} (hb : dataIsBytes o.data = true) :
    ∃ v, o.data = ManifestObjectData.Bytes v := by
  cases hdata : o.data with
  | Bytes v => exact ⟨v, rfl⟩
  | Region s e => rw [hdata] at hb; simp [dataIsBytes] at hb

lemma encodeObjects_ok (objs : List ManifestObject) : ∀ b : List Nat, b.length % 8 = 0 →
    (∀ o ∈ objs, validObj o) → encodeObjects b objs = Except.ok (b ++ encList objs) := by
  induction objs with
  | nil => intro b h8 hv; simp [encodeObjects, encList]
  | cons o os ih =>
    intro b h8 hv
    obtain ⟨hb, -⟩ := hv o (List.mem_cons_self o os)
    obtain ⟨v, hd⟩ := data_bytes_of_isBytes hb
    rw [encodeObjects, encodeObject_eq b hd h8]
    have h8b : (b ++ encObjA o).length % 8 = 0 := by
      have hm := encObjA_mod8 hd
      simp only [List.length_append]
      omega
    dsimp only
    rw [ih (b ++ encObjA o) h8b (fun q hq => hv q (List.mem_cons_of_mem o hq))]
    simp [encList, List.append_assoc]

lemma to_image_ok (m : Manifest) (hv : validManifest m) :
    to_image m = Except.ok (u32Bytes MANIFEST_MAGIC ++
      (u32Bytes MANIFEST_VERSION ++ (encList m.objects ++ u32Bytes 0))) := by
  unfold to_image
  have hh : add_u32 (add_u32 [] MANIFEST_MAGIC) MANIFEST_VERSION =
      u32Bytes MANIFEST_MAGIC ++ u32Bytes MANIFEST_VERSION := by
    simp [add_u32]
  rw [hh, encodeObjects_ok m.objects _ (by simp) hv]
  simp [add_u32, ManifestObjectType.to_integer, List.append_assoc]

lemma encodeObject_region (b : List Nat) (o : ManifestObject) {s e : Nat}
    (hd : o.data = ManifestObjectData.Region s e) :
    encodeObject b o = Except.error ManifestError.CantUseRegionHere := by
  unfold encodeObject
  rw [hd]

lemma encodeObject_bytes (b : List Nat) (o : ManifestObject) {v : List Nat}
    (hd : o.data = ManifestObjectData.Bytes v) :
    ∃ b2, encodeObject b o = Except.ok b2 := by
  unfold encodeObject
  rw [hd]
  exact ⟨_, rfl⟩

lemma encodeObjects_region (objs : List ManifestObject) : ∀ b : List Nat,
    (∃ o ∈ objs, dataIsBytes o.data = false) →
    encodeObjects b objs = Except.error ManifestError.CantUseRegionHere := by
  induction objs with
  | nil => intro b h; obtain ⟨o, ho, -⟩ := h; exact absurd ho (List.not_mem_nil o)
  | cons o os ih =>
    intro b h
    cases hdata : o.data with
    | Region s e => rw [encodeObjects, encodeObject_region b o hdata]
    | Bytes v =>
      obtain ⟨w, hw, hwr⟩ := h
      have hwos : w ∈ os := by
        rcases List.mem_cons.mp hw with he | hos
        · rw [he, hdata] at hwr; simp [dataIsBytes] at hwr
        · exact hos
      obtain ⟨b2, hb2⟩ := encodeObject_bytes b o hdata
      rw [encodeObjects, hb2]
      exact ih b2 ⟨w, hwos, hwr⟩

lemma to_image_region (m : Manifest) (h : ∃ o ∈ m.objects, dataIsBytes o.data = false) :
    to_image m = Except.error ManifestError.CantUseRegionHere := by
  unfold to_image
  rw [encodeObjects_region m.objects _ h]

lemma encodeObjects_bytes (objs : List ManifestObject) : ∀ b : List Nat,
    (∀ o ∈ objs, dataIsBytes o.data = true) → ∃ b2, encodeObjects b objs = Except.ok b2 := by
  induction objs with
  | nil => intro b _; exact ⟨b, rfl⟩
  | cons o os ih =>
    intro b h
    obtain ⟨v, hd⟩ := data_bytes_of_isBytes (h o (List.mem_cons_self o os))
    obtain ⟨b2, hb2⟩ := encodeObject_bytes b o hd
    obtain ⟨b3, hb3⟩ := ih b2 (fun q hq => h q (List.mem_cons_of_mem o hq))
    exact ⟨b3, by rw [encodeObjects, hb2]; dsimp only; rw [hb3]⟩

lemma to_image_bytes (m : Manifest) (h : ∀ o ∈ m.objects, dataIsBytes o.data = true) :
    ∃ img, to_image m = Except.ok img := by
  obtain ⟨b2, hb2⟩ := encodeObjects_bytes m.objects _ h
  exact ⟨_, by unfold to_image; rw [hb2]⟩

lemma from_slice_none (blob : List Nat) (h : read_u32 blob 0 = none) :
    from_slice blob = Except.error ManifestError.MalformedHeader := by
  unfold from_slice
  rw [h]

lemma from_slice_badmagic (blob : List Nat) (mv : Nat) (h : read_u32 blob 0 = some mv)
    (hne : mv ≠ MANIFEST_MAGIC) :
    from_slice blob = Except.error ManifestError.BadMagic := by
  unfold from_slice
  rw [h]
  dsimp only
  rw [if_pos hne]

lemma from_slice_short (blob : List Nat) (h0 : read_u32 blob 0 = some MANIFEST_MAGIC)
    (h4 : read_u32 blob 4 = none) :
    from_slice blob = Except.error ManifestError.MalformedHeader := by
  unfold from_slice
  rw [h0]
  dsimp only
  rw [if_neg (fun hne => hne rfl), h4]

lemma from_slice_vm (blob : List Nat) (ver : Nat)
    (h0 : read_u32 blob 0 = some MANIFEST_MAGIC) (h4 : read_u32 blob 4 = some ver)
    (hv : MANIFEST_VERSION < ver) :
    from_slice blob = Except.error ManifestError.VersionMismatch := by
  unfold from_slice
  rw [h0]
  dsimp only
  rw [if_neg (fun hne => hne rfl), h4]
  dsimp only
  rw [if_pos hv]

lemma from_slice_good (blob : List Nat) (ver : Nat)
    (h0 : read_u32 blob 0 = some MANIFEST_MAGIC) (h4 : read_u32 blob 4 = some ver)
    (hv : ver ≤ MANIFEST_VERSION) :
    from_slice blob = Except.ok { offset := 8, bytes := blob } := by
  unfold from_slice
  rw [h0]
  dsimp only
  rw [if_neg (fun hne => hne rfl), h4]
  dsimp only
  rw [if_neg (by omega)]

lemma next_encObjA {b1 rest : List Nat} {o : ManifestObject} {v : List Nat}
    (hd : o.data = ManifestObjectData.Bytes v)
    (hnm : 0 ∉ o.name) (hds : 0 ∉ o.descr) (hpr : ∀ p ∈ o.properties, 0 ∉ p)
    (hpc : o.properties.length < 4294967296) (hvl : v.length < 18446744073709551616)
    (ht : o.objtype ≠ ManifestObjectType.EndOfList)
    (h8 : b1.length % 8 = 0) :
    ManifestImageIter.next ⟨b1.length, b1 ++ (encObjA o ++ rest)⟩ =
      (some { objtype := o.objtype, name := o.name, descr := o.descr,
              properties := o.properties,
              data := ManifestObjectData.Region (b1.length + contOff o)
                (b1.length + contOff o + v.length) },
       ⟨b1.length + (encObjA o).length, b1 ++ (encObjA o ++ rest)⟩) ∧
    ((b1 ++ (encObjA o ++ rest)).drop (b1.length + contOff o)).take v.length = v := by
  have h4mod : b1.length % 4 = 0 := by omega
  have h0 : (b1 ++ (encObjA o ++ rest)).drop b1.length =
      u32Bytes MANIFEST_OBJECT_MAGIC ++
(u32Bytes o.objtype.to_integer ++
(u64Bytes v.length ++
(o.name ++
(0 ::
(o.descr ++
(0 ::
(zeros (alignTo 4 (18 + o.name.length + o.descr.length) -
        (18 + o.name.length + o.descr.length)) ++
(u32Bytes o.properties.length ++
(ntsChain o.properties ++
(zeros (contOff o - (alignTo 4 (18 + o.name.length + o.descr.length) + 4 +
        (ntsChain o.properties).length)) ++
(v ++
(zeros (alignTo 8 (contOff o + v.length) - (contOff o + v.length)) ++
(rest))))))))))))) := by
    have hdl : (b1 ++ (encObjA o ++ rest)).drop b1.length = encObjA o ++ rest :=
      List.drop_left b1 _
    rw [hdl]
    simp [encObjA, hd, contentOf, ManifestObjectData.len, List.append_assoc]
  have hA : read_u32 (b1 ++ (encObjA o ++ rest)) b1.length = some MANIFEST_OBJECT_MAGIC :=
    (read_u32_of_drop h0).trans (congrArg some (by norm_num [MANIFEST_OBJECT_MAGIC]))
  have h1 : (b1 ++ (encObjA o ++ rest)).drop (b1.length + 4) =
      u32Bytes o.objtype.to_integer ++
(u64Bytes v.length ++
(o.name ++
(0 ::
(o.descr ++
(0 ::
(zeros (alignTo 4 (18 + o.name.length + o.descr.length) -
        (18 + o.name.length + o.descr.length)) ++
(u32Bytes o.properties.length ++
(ntsChain o.properties ++
(zeros (contOff o - (alignTo 4 (18 + o.name.length + o.descr.length) + 4 +
        (ntsChain o.properties).length)) ++
(v ++
(zeros (alignTo 8 (contOff o + v.length) - (contOff o + v.length)) ++
(rest)))))))))))) :=
    drop_shift h0 (by simp)
  have hB : read_u32 (b1 ++ (encObjA o ++ rest)) (b1.length + 4) =
      some o.objtype.to_integer :=
    (read_u32_of_drop h1).trans (congrArg some (Nat.mod_eq_of_lt (to_integer_lt o.objtype)))
  have h2 : (b1 ++ (encObjA o ++ rest)).drop (b1.length + 4 + 4) =
      u64Bytes v.length ++
(o.name ++
(0 ::
(o.descr ++
(0 ::
(zeros (alignTo 4 (18 + o.name.length + o.descr.length) -
        (18 + o.name.length + o.descr.length)) ++
(u32Bytes o.properties.length ++
(ntsChain o.properties ++
(zeros (contOff o - (alignTo 4 (18 + o.name.length + o.descr.length) + 4 +
        (ntsChain o.properties).length)) ++
(v ++
(zeros (alignTo 8 (contOff o + v.length) - (contOff o + v.length)) ++
(rest))))))))))) :=
    drop_shift h1 (by simp)
  have hC : read_u64 (b1 ++ (encObjA o ++ rest)) (b1.length + 4 + 4) = some v.length :=
    (read_u64_of_drop h2).trans (congrArg some (Nat.mod_eq_of_lt hvl))
  have h3 : (b1 ++ (encObjA o ++ rest)).drop (b1.length + 4 + 4 + 8) =
      o.name ++
(0 ::
(o.descr ++
(0 ::
(zeros (alignTo 4 (18 + o.name.length + o.descr.length) -
        (18 + o.name.length + o.descr.length)) ++
(u32Bytes o.properties.length ++
(ntsChain o.properties ++
(zeros (contOff o - (alignTo 4 (18 + o.name.length + o.descr.length) + 4 +
        (ntsChain o.properties).length)) ++
(v ++
(zeros (alignTo 8 (contOff o + v.length) - (contOff o + v.length)) ++
(rest)))))))))) :=
    drop_shift h2 (by simp)
  have hD : read_null_term_string (b1 ++ (encObjA o ++ rest)) (b1.length + 4 + 4 + 8) =
      some o.name := read_nts_of_drop h3 hnm
  have h3b : (b1 ++ (encObjA o ++ rest)).drop (b1.length + 4 + 4 + 8) =
      (o.name ++ [0]) ++
      (o.descr ++
(0 ::
(zeros (alignTo 4 (18 + o.name.length + o.descr.length) -
        (18 + o.name.length + o.descr.length)) ++
(u32Bytes o.properties.length ++
(ntsChain o.properties ++
(zeros (contOff o - (alignTo 4 (18 + o.name.length + o.descr.length) + 4 +
        (ntsChain o.properties).length)) ++
(v ++
(zeros (alignTo 8 (contOff o + v.length) - (contOff o + v.length)) ++
(rest))))))))) := by
    rw [h3]
    simp [List.append_assoc]
  have h4 : (b1 ++ (encObjA o ++ rest)).drop (b1.length + 4 + 4 + 8 + (o.name.length + 1)) =
      o.descr ++
(0 ::
(zeros (alignTo 4 (18 + o.name.length + o.descr.length) -
        (18 + o.name.length + o.descr.length)) ++
(u32Bytes o.properties.length ++
(ntsChain o.properties ++
(zeros (contOff o - (alignTo 4 (18 + o.name.length + o.descr.length) + 4 +
        (ntsChain o.properties).length)) ++
(v ++
(zeros (alignTo 8 (contOff o + v.length) - (contOff o + v.length)) ++
(rest)))))))) :=
    drop_shift h3b (by simp)
  have hE : read_null_term_string (b1 ++ (encObjA o ++ rest))
      (b1.length + 4 + 4 + 8 + (o.name.length + 1)) = some o.descr :=
    read_nts_of_drop h4 hds
  have h4b : (b1 ++ (encObjA o ++ rest)).drop (b1.length + 4 + 4 + 8 + (o.name.length + 1)) =
      (o.descr ++ [0]) ++
      (zeros (alignTo 4 (18 + o.name.length + o.descr.length) -
        (18 + o.name.length + o.descr.length)) ++
(u32Bytes o.properties.length ++
(ntsChain o.properties ++
(zeros (contOff o - (alignTo 4 (18 + o.name.length + o.descr.length) + 4 +
        (ntsChain o.properties).length)) ++
(v ++
(zeros (alignTo 8 (contOff o + v.length) - (contOff o + v.length)) ++
(rest))))))) := by
    rw [h4]
    simp [List.append_assoc]
  have h5 : (b1 ++ (encObjA o ++ rest)).drop
      (b1.length + 4 + 4 + 8 + (o.name.length + 1) + (o.descr.length + 1)) =
      zeros (alignTo 4 (18 + o.name.length + o.descr.length) -
        (18 + o.name.length + o.descr.length)) ++
(u32Bytes o.properties.length ++
(ntsChain o.properties ++
(zeros (contOff o - (alignTo 4 (18 + o.name.length + o.descr.length) + 4 +
        (ntsChain o.properties).length)) ++
(v ++
(zeros (alignTo 8 (contOff o + v.length) - (contOff o + v.length)) ++
(rest)))))) :=
    drop_shift h4b (by simp)
  have h6 : (b1 ++ (encObjA o ++ rest)).drop
      (b1.length + alignTo 4 (18 + o.name.length + o.descr.length)) =
      u32Bytes o.properties.length ++
(ntsChain o.properties ++
(zeros (contOff o - (alignTo 4 (18 + o.name.length + o.descr.length) + 4 +
        (ntsChain o.properties).length)) ++
(v ++
(zeros (alignTo 8 (contOff o + v.length) - (contOff o + v.length)) ++
(rest))))) := by
    have hle4 := le_alignTo4 (18 + o.name.length + o.descr.length)
    have h5b := drop_shift h5 (length_zeros _)
    rw [show b1.length + alignTo 4 (18 + o.name.length + o.descr.length) =
        b1.length + 4 + 4 + 8 + (o.name.length + 1) + (o.descr.length + 1) +
        (alignTo 4 (18 + o.name.length + o.descr.length) -
          (18 + o.name.length + o.descr.length)) from by omega]
    exact h5b
  have hAlign : align_to_next_u32
      (b1.length + 4 + 4 + 8 + (o.name.length + 1) + (o.descr.length + 1)) =
      b1.length + alignTo 4 (18 + o.name.length + o.descr.length) := by
    unfold align_to_next_u32
    rw [show b1.length + 4 + 4 + 8 + (o.name.length + 1) + (o.descr.length + 1) =
        b1.length + (18 + o.name.length + o.descr.length) from by omega]
    exact alignTo4_add _ _ h4mod
  have hF : read_u32 (b1 ++ (encObjA o ++ rest)) (align_to_next_u32
      (b1.length + 4 + 4 + 8 + (o.name.length + 1) + (o.descr.length + 1))) =
      some o.properties.length := by
    rw [hAlign]
    exact (read_u32_of_drop h6).trans (congrArg some (Nat.mod_eq_of_lt hpc))
  have h7 : (b1 ++ (encObjA o ++ rest)).drop
      (b1.length + alignTo 4 (18 + o.name.length + o.descr.length) + 4) =
      ntsChain o.properties ++
(zeros (contOff o - (alignTo 4 (18 + o.name.length + o.descr.length) + 4 +
        (ntsChain o.properties).length)) ++
(v ++
(zeros (alignTo 8 (contOff o + v.length) - (contOff o + v.length)) ++
(rest)))) :=
    drop_shift h6 (by simp)
  have hG : readProps (b1 ++ (encObjA o ++ rest)) (align_to_next_u32
      (b1.length + 4 + 4 + 8 + (o.name.length + 1) + (o.descr.length + 1)) + 4)
      o.properties.length =
      some (o.properties,
        align_to_next_u32 (b1.length + 4 + 4 + 8 + (o.name.length + 1) +
          (o.descr.length + 1)) + 4 + (ntsChain o.properties).length) := by
    rw [hAlign]
    exact readProps_of_drop o.properties h7 hpr
  have h8c : (b1 ++ (encObjA o ++ rest)).drop
      (b1.length + alignTo 4 (18 + o.name.length + o.descr.length) + 4 +
        (ntsChain o.properties).length) =
      zeros (contOff o - (alignTo 4 (18 + o.name.length + o.descr.length) + 4 +
        (ntsChain o.properties).length)) ++
(v ++
(zeros (alignTo 8 (contOff o + v.length) - (contOff o + v.length)) ++
(rest))) :=
    drop_shift h7 rfl
  have h9 : (b1 ++ (encObjA o ++ rest)).drop (b1.length + contOff o) =
      v ++
(zeros (alignTo 8 (contOff o + v.length) - (contOff o + v.length)) ++
(rest)) := by
    have hle8 := le_alignTo8 (alignTo 4 (18 + o.name.length + o.descr.length) + 4 +
      (ntsChain o.properties).length)
    have h8d := drop_shift h8c (length_zeros _)
    rw [show b1.length + contOff o =
        b1.length + alignTo 4 (18 + o.name.length + o.descr.length) + 4 +
        (ntsChain o.properties).length +
        (contOff o - (alignTo 4 (18 + o.name.length + o.descr.length) + 4 +
          (ntsChain o.properties).length)) from by unfold contOff; omega]
    exact h8d
  have hTake : ((b1 ++ (encObjA o ++ rest)).drop (b1.length + contOff o)).take v.length = v := by
    rw [h9]
    exact List.take_left v _
  have hOff4 : align_to_next_u64 (align_to_next_u32
      (b1.length + 4 + 4 + 8 + (o.name.length + 1) + (o.descr.length + 1)) + 4 +
      (ntsChain o.properties).length) = b1.length + contOff o := by
    rw [hAlign]
    unfold align_to_next_u64 contOff
    rw [show b1.length + alignTo 4 (18 + o.name.length + o.descr.length) + 4 +
        (ntsChain o.properties).length =
        b1.length + (alignTo 4 (18 + o.name.length + o.descr.length) + 4 +
        (ntsChain o.properties).length) from by omega]
    exact alignTo8_add _ _ h8
  have hSave : align_to_next_u64 (b1.length + contOff o + v.length) =
      b1.length + (encObjA o).length := by
    unfold align_to_next_u64
    rw [show b1.length + contOff o + v.length =
        b1.length + (contOff o + v.length) from by omega]
    rw [alignTo8_add _ _ h8, encObjA_length hd]
  constructor
  · unfold ManifestImageIter.next
    dsimp only
    rw [hA]
    dsimp only
    rw [if_neg (fun hne => hne rfl), hB]
    dsimp only
    rw [from_to, if_neg ht, hC]
    dsimp only
    rw [hD]
    dsimp only
    rw [hE]
    dsimp only
    rw [hF]
    dsimp only
    rw [hG]
    dsimp only
    rw [hOff4, hSave]
  · exact hTake

lemma next_cases (it : ManifestImageIter) :
    it.next = (none, it) ∨
    ∃ o off3 sz, it.next =
        (some o, ⟨align_to_next_u64 (align_to_next_u64 off3 + sz), it.bytes⟩) ∧
      o.data = ManifestObjectData.Region (align_to_next_u64 off3)
        (align_to_next_u64 off3 + sz) ∧
      o.objtype ≠ ManifestObjectType.EndOfList := by
  unfold ManifestImageIter.next
  cases h1 : read_u32 it.bytes it.offset with
  | none => exact Or.inl rfl
  | some magic =>
    dsimp only
    by_cases hm : magic ≠ MANIFEST_OBJECT_MAGIC
    · rw [if_pos hm]; exact Or.inl rfl
    · rw [if_neg hm]
      cases h2 : read_u32 it.bytes (it.offset + 4) with
      | none => exact Or.inl rfl
      | some tnr =>
        dsimp only
        by_cases hteq : ManifestObjectType.from_integer tnr = ManifestObjectType.EndOfList
        · rw [if_pos hteq]; exact Or.inl rfl
        · rw [if_neg hteq]
          cases h3 : read_u64 it.bytes (it.offset + 4 + 4) with
          | none => exact Or.inl rfl
          | some obj_size =>
            dsimp only
            cases h4 : read_null_term_string it.bytes (it.offset + 4 + 4 + 8) with
            | none => exact Or.inl rfl
            | some obj_name =>
              dsimp only
              cases h5 : read_null_term_string it.bytes
                  (it.offset + 4 + 4 + 8 + (obj_name.length + 1)) with
              | none => exact Or.inl rfl
              | some obj_desc =>
                dsimp only
                cases h6 : read_u32 it.bytes (align_to_next_u32
                    (it.offset + 4 + 4 + 8 + (obj_name.length + 1) +
                      (obj_desc.length + 1))) with
                | none => exact Or.inl rfl
                | some obj_property_count =>
                  dsimp only
                  cases h7 : readProps it.bytes (align_to_next_u32
                      (it.offset + 4 + 4 + 8 + (obj_name.length + 1) +
                        (obj_desc.length + 1)) + 4) obj_property_count with
                  | none => exact Or.inl rfl
                  | some pr =>
                    dsimp only
                    obtain ⟨obj_props, off3⟩ := pr
                    exact Or.inr ⟨_, off3, obj_size, rfl, rfl, hteq⟩

lemma next_none_frame {it : ManifestImageIter} (h : (it.next).1 = none) :
    it.next = (none, it) := by
  rcases next_cases it with hc | ⟨o, off3, sz, hc, -, -⟩
  · exact hc
  · rw [hc] at h
    simp at h

lemma next_bytes_frame (it : ManifestImageIter) : ((it.next).2).bytes = it.bytes := by
  rcases next_cases it with hc | ⟨o, off3, sz, hc, -, -⟩ <;> rw [hc]

lemma drive_encList (objs : List ManifestObject) : ∀ (b1 rest : List Nat) (fuel : Nat),
    b1.length % 8 = 0 → (∀ o ∈ objs, validObj o) → objs.length < fuel →
    List.Forall₂ (objMatches (b1 ++ (encList objs ++ (u32Bytes 0 ++ rest)))) objs
      (drive ⟨b1.length, b1 ++ (encList objs ++ (u32Bytes 0 ++ rest))⟩ fuel) := by
  induction objs with
  | nil =>
    intro b1 rest fuel h8 hv hf
    obtain ⟨f, rfl⟩ : ∃ f, fuel = f + 1 := ⟨fuel - 1, by omega⟩
    simp only [encList, List.nil_append]
    have h0 : (b1 ++ (u32Bytes 0 ++ rest)).drop b1.length = u32Bytes 0 ++ rest :=
      List.drop_left b1 _
    have hr : read_u32 (b1 ++ (u32Bytes 0 ++ rest)) b1.length = some 0 :=
      (read_u32_of_drop h0).trans (congrArg some (by norm_num))
    simp only [drive]
    unfold ManifestImageIter.next
    dsimp only
    rw [hr]
    dsimp only
    rw [if_pos (by norm_num [MANIFEST_OBJECT_MAGIC])]
    exact List.Forall₂.nil
  | cons o os ih =>
    intro b1 rest fuel h8 hv hf
    obtain ⟨f, rfl⟩ : ∃ f, fuel = f + 1 := ⟨fuel - 1, by omega⟩
    obtain ⟨hb, hnm, hds, hpr, hpc, hvl, ht⟩ := hv o (List.mem_cons_self o os)
    obtain ⟨v, hd⟩ := data_bytes_of_isBytes hb
    have hvl2 : v.length < 18446744073709551616 := by
      rw [hd] at hvl
      simpa [ManifestObjectData.len] using hvl
    have hBeq : encList (o :: os) ++ (u32Bytes 0 ++ rest) =
        encObjA o ++ (encList os ++ (u32Bytes 0 ++ rest)) := by
      simp [encList, List.append_assoc]
    rw [hBeq]
    have hnx := @next_encObjA b1 (encList os ++ (u32Bytes 0 ++ rest)) o v
      hd hnm hds hpr hpc hvl2 ht h8
    simp only [drive]
    rw [hnx.1]
    dsimp only
    refine List.Forall₂.cons ?_ ?_
    · exact ⟨rfl, rfl, rfl, rfl, b1.length + contOff o, b1.length + contOff o + v.length,
        v, hd, rfl, rfl, hnx.2⟩
    · have h8b : (b1 ++ encObjA o).length % 8 = 0 := by
        have := encObjA_mod8 hd
        simp only [List.length_append]
        omega
      have hih := ih (b1 ++ encObjA o) rest f h8b
        (fun q hq => hv q (List.mem_cons_of_mem o hq)) (by simp at hf; omega)
      simpa [List.append_assoc, List.length_append] using hih

instance {ε α : Type} [DecidableEq ε] [DecidableEq α] : DecidableEq (Except ε α) :=
  fun a b =>
    match a, b with
    | Except.ok x, Except.ok y =>
      if h : x = y then Decidable.isTrue (by rw [h])
      else Decidable.isFalse (fun e => h (Except.ok.inj e))
    | Except.error x, Except.error y =>
      if h : x = y then Decidable.isTrue (by rw [h])
      else Decidable.isFalse (fun e => h (Except.error.inj e))
    | Except.ok _, Except.error _ => Decidable.isFalse (fun e => Except.noConfusion e)
    | Except.error _, Except.ok _ => Decidable.isFalse (fun e => Except.noConfusion e)

end Dmfs

namespace Dmfs

lemma next_read_none {it : ManifestImageIter} (h : read_u32 it.bytes it.offset = none) :
    it.next = (none, it) := by
  unfold ManifestImageIter.next
  rw [h]

/-- Example object with owned content, no properties. -/
def exObj1 : ManifestObject :=
  { objtype := ManifestObjectType.BootMsg, name := [119], descr := [87],
    properties := [], data := ManifestObjectData.Bytes [72, 101] }

/-- Example object with owned content and two property strings. -/
def exObj2 : ManifestObject :=
  { objtype := ManifestObjectType.SystemService, name := [105, 110], descr := [73],
    properties := [[101], [112, 114]], data := ManifestObjectData.Bytes [9, 8, 7] }

/-- Example manifest holding the two example objects. -/
def exManifest : Manifest := { objects := [exObj1, exObj2] }

/-- A manifest whose single object carries the reserved EndOfList type code with
owned empty content and null-free strings. -/
def cexM : Manifest :=
  { objects := [{ objtype := ManifestObjectType.EndOfList, name := [], descr := [],
                  properties := [], data := ManifestObjectData.Bytes [] }] }

/-- The image bytes that to_image produces for cexM. -/
def cexImg : List Nat := [1, 192, 5, 209, 2, 0, 0, 0, 77, 93, 1, 209] ++ zeros 24

/-- A 32-byte blob with a valid header and one object record whose u64 content
length field is 100 although no content bytes follow. -/
def c4blob : List Nat :=
  [1, 192, 5, 209, 2, 0, 0, 0, 77, 93, 1, 209, 1, 0, 0, 0,
   100, 0, 0, 0, 0, 0, 0, 0, 97, 0, 0, 0, 0, 0, 0, 0]

/-- The object that the decoder yields from c4blob: its region runs past the
end of the 32-byte image. -/
def c4obj : ManifestObject :=
  { objtype := ManifestObjectType.BootMsg, name := [97], descr := [],
    properties := [], data := ManifestObjectData.Region 32 132 }

/-- A manifest whose single object has Region-backed content. -/
def c3RegManifest : Manifest :=
  { objects := [{ objtype := ManifestObjectType.BootMsg, name := [97], descr := [98],
                  properties := [], data := ManifestObjectData.Region 2 5 }] }

/-- Header plus exactly one encoded object record and no terminator. -/
def c5blob : List Nat :=
  u32Bytes MANIFEST_MAGIC ++ (u32Bytes MANIFEST_VERSION ++ encObjA exObj1)

end Dmfs

namespace Dmfs

/-- Claim C3: encoding a Manifest containing any object with Region-backed
content returns CantUseRegionHere (and hence no output bytes), while a
Manifest all of whose objects carry owned bytes encodes successfully. -/
theorem c3_region_rejection (m : Manifest) :
    ((∃ o ∈ m.objects, dataIsBytes o.data = false) →
      to_image m = Except.error ManifestError.CantUseRegionHere) ∧
    ((∀ o ∈ m.objects, dataIsBytes o.data = true) →
      ∃ img, to_image m = Except.ok img) :=
  ⟨to_image_region m, to_image_bytes m⟩

theorem c3_region_rejection_witness :
    to_image c3RegManifest = Except.error ManifestError.CantUseRegionHere ∧
    ∃ img, to_image exManifest = Except.ok img :=
  ⟨(c3_region_rejection c3RegManifest).1 (by decide),
   (c3_region_rejection exManifest).2 (by decide)⟩

/-- Claim C4: the decoder performs no bounds check of the content region: on
the concrete 32-byte blob c4blob, whose object record stores content length
100, from_slice succeeds and next yields an object whose Region is
[32, 132), with 132 beyond the image's 32 bytes. -/
theorem c4_no_bounds_check :
    from_slice c4blob = Except.ok { offset := 8, bytes := c4blob } ∧
    ManifestImageIter.next { offset := 8, bytes := c4blob } =
      (some c4obj, { offset := 136, bytes := c4blob }) ∧
    read_u64 c4blob 16 = some 100 ∧
    c4obj.data = ManifestObjectData.Region 32 132 ∧
    c4blob.length = 32 ∧ c4blob.length < 132 := by
  decide

/-- Claim C6: once a call to next returns no item, every subsequent call on
the same iterator also returns no item. -/
theorem c6_termination_idempotent (it : ManifestImageIter) (h : (it.next).1 = none) :
    ∀ n, (nthNext it n).1 = none := by
  intro n
  induction n with
  | zero => simpa [nthNext] using h
  | succ k ihk =>
    show (nthNext (it.next).2 k).1 = none
    rw [next_none_frame h]
    exact ihk

theorem c6_termination_idempotent_witness :
    ((ManifestImageIter.mk 8 []).next).1 = none ∧
    (nthNext (ManifestImageIter.mk 8 []) 5).1 = none :=
  ⟨rfl, c6_termination_idempotent (ManifestImageIter.mk 8 []) rfl 5⟩

/-- Claim C7: every object yielded by next carries a content Region whose
start offset is a multiple of 8, and the iterator's saved cursor after
yielding is also a multiple of 8. -/
theorem c7_alignment (it : ManifestImageIter) (o : ManifestObject)
    (it2 : ManifestImageIter) (h : it.next = (some o, it2)) :
    (∃ s e, o.data = ManifestObjectData.Region s e ∧ s % 8 = 0) ∧
    it2.offset % 8 = 0 := by
  rcases next_cases it with hc | ⟨o2, off3, sz, hc, hdata, -⟩
  · rw [hc] at h
    simp at h
  · rw [hc] at h
    injection h with h1 h2
    injection h1 with h1
    subst h1
    subst h2
    refine ⟨⟨align_to_next_u64 off3, align_to_next_u64 off3 + sz, hdata, ?_⟩, ?_⟩
    · unfold align_to_next_u64
      exact alignTo8_mod off3
    · show align_to_next_u64 (align_to_next_u64 off3 + sz) % 8 = 0
      unfold align_to_next_u64
      exact alignTo8_mod _

theorem c7_alignment_witness :
    (∃ s e, c4obj.data = ManifestObjectData.Region s e ∧ s % 8 = 0) ∧
    (ManifestImageIter.mk 136 c4blob).offset % 8 = 0 :=
  c7_alignment (ManifestImageIter.mk 8 c4blob) c4obj (ManifestImageIter.mk 136 c4blob)
    (by decide)

/-- Claim C8: to_integer is injective on the five variants with the stated
values, from_integer inverts it, and from_integer maps every u32 outside
0, 1, 2, 3 to Unknown without failing. -/
theorem c8_type_codes :
    (∀ t : ManifestObjectType, ManifestObjectType.from_integer t.to_integer = t) ∧
    (∀ t u : ManifestObjectType, t.to_integer = u.to_integer → t = u) ∧
    (∀ n : Nat, n < 4294967296 → 4 ≤ n →
      ManifestObjectType.from_integer n = ManifestObjectType.Unknown) ∧
    ManifestObjectType.EndOfList.to_integer = 0 ∧
    ManifestObjectType.BootMsg.to_integer = 1 ∧
    ManifestObjectType.SystemService.to_integer = 2 ∧
    ManifestObjectType.GuestOS.to_integer = 3 ∧
    ManifestObjectType.Unknown.to_integer = 4 := by
  refine ⟨fun t => from_to t,
    fun t u h => by cases t <;> cases u <;> simp_all [ManifestObjectType.to_integer],
    fun n hlt h4 => ?_, rfl, rfl, rfl, rfl, rfl⟩
  obtain ⟨k, rfl⟩ : ∃ k, n = k + 4 := ⟨n - 4, by omega⟩
  rfl

theorem c8_type_codes_witness :
    ManifestObjectType.from_integer 7 = ManifestObjectType.Unknown ∧
    ManifestObjectType.from_integer ManifestObjectType.GuestOS.to_integer =
      ManifestObjectType.GuestOS :=
  ⟨c8_type_codes.2.2.1 7 (by decide) (by decide), c8_type_codes.1 ManifestObjectType.GuestOS⟩

/-- Claim C9: next never yields an object whose type code is EndOfList; a
record decoding to EndOfList terminates the iteration instead. -/
theorem c9_no_endoflist (it : ManifestImageIter) (o : ManifestObject)
    (it2 : ManifestImageIter) (h : it.next = (some o, it2)) :
    o.objtype ≠ ManifestObjectType.EndOfList := by
  rcases next_cases it with hc | ⟨o2, off3, sz, hc, -, hne⟩
  · rw [hc] at h
    simp at h
  · rw [hc] at h
    injection h with h1 h2
    injection h1 with h1
    rw [← h1]
    exact hne

theorem c9_no_endoflist_witness : c4obj.objtype ≠ ManifestObjectType.EndOfList :=
  c9_no_endoflist (ManifestImageIter.mk 8 c4blob) c4obj (ManifestImageIter.mk 136 c4blob)
    (by decide)

/-- Claim C10: next never changes the iterator's image bytes, mutating at most
the cursor offset, and when it returns no item the cursor is unchanged too. -/
theorem c10_frame (it : ManifestImageIter) :
    ((it.next).2).bytes = it.bytes ∧ ((it.next).1 = none → (it.next).2 = it) :=
  ⟨next_bytes_frame it, fun h => by rw [next_none_frame h]⟩

theorem c10_frame_witness :
    (((ManifestImageIter.mk 8 []).next).2).bytes = [] ∧
    ((ManifestImageIter.mk 8 []).next).2 = ManifestImageIter.mk 8 [] :=
  ⟨(c10_frame (ManifestImageIter.mk 8 [])).1,
   (c10_frame (ManifestImageIter.mk 8 [])).2 rfl⟩

end Dmfs

namespace Dmfs

/-- Claim C1 as stated is false: the manifest cexM satisfies all of the
claim's side conditions (owned bytes, no interior nulls) but contains an
object of the reserved EndOfList type, which the decoder treats as the
stream terminator, so driving the iterator yields no objects at all. -/
theorem c1_counterexample :
    ¬ (∀ m : Manifest, ownedNoNulls m → ∀ fuel, m.objects.length < fuel →
      ∃ img it, to_image m = Except.ok img ∧ from_slice img = Except.ok it ∧
        List.Forall₂ (objMatches img) m.objects (drive it fuel)) := by
  intro h
  obtain ⟨img, it, h1, h2, h3⟩ := h cexM (by decide) 2 (by decide)
  have e1 : to_image cexM = Except.ok cexImg := by decide
  rw [e1] at h1
  have himg := Except.ok.inj h1
  subst himg
  have e2 : from_slice cexImg = Except.ok (ManifestImageIter.mk 8 cexImg) := by decide
  rw [e2] at h2
  have hit := Except.ok.inj h2
  subst hit
  have e3 : drive (ManifestImageIter.mk 8 cexImg) 2 = [] := by decide
  rw [e3] at h3
  exact absurd h3 (by intro hf; cases hf)

/-- Claim C1, amended: the round trip holds for every Manifest whose objects
all have owned-bytes content, null-free strings, no object of the reserved
EndOfList type, fewer than 2 to the 32 properties per object and content
shorter than 2 to the 64 bytes: to_image succeeds, from_slice accepts the
image, and driving the iterator with sufficient fuel yields exactly the
manifest's objects in order, with equal scalar fields and with content
Regions denoting exactly the original content bytes within the image. -/
theorem c1_round_trip (m : Manifest) (hv : validManifest m) (fuel : Nat)
    (hf : m.objects.length < fuel) :
    ∃ img it, to_image m = Except.ok img ∧ from_slice img = Except.ok it ∧
      List.Forall₂ (objMatches img) m.objects (drive it fuel) := by
  refine ⟨u32Bytes MANIFEST_MAGIC ++
      (u32Bytes MANIFEST_VERSION ++ (encList m.objects ++ u32Bytes 0)),
    ManifestImageIter.mk 8 (u32Bytes MANIFEST_MAGIC ++
      (u32Bytes MANIFEST_VERSION ++ (encList m.objects ++ u32Bytes 0))),
    to_image_ok m hv, ?_, ?_⟩
  · have h0 : (u32Bytes MANIFEST_MAGIC ++
        (u32Bytes MANIFEST_VERSION ++ (encList m.objects ++ u32Bytes 0))).drop 0 =
        u32Bytes MANIFEST_MAGIC ++
        (u32Bytes MANIFEST_VERSION ++ (encList m.objects ++ u32Bytes 0)) :=
      List.drop_zero _
    have hm : read_u32 (u32Bytes MANIFEST_MAGIC ++
        (u32Bytes MANIFEST_VERSION ++ (encList m.objects ++ u32Bytes 0))) 0 =
        some MANIFEST_MAGIC :=
      (read_u32_of_drop h0).trans (congrArg some (by norm_num [MANIFEST_MAGIC]))
    have h4 : (u32Bytes MANIFEST_MAGIC ++
        (u32Bytes MANIFEST_VERSION ++ (encList m.objects ++ u32Bytes 0))).drop 4 =
        u32Bytes MANIFEST_VERSION ++ (encList m.objects ++ u32Bytes 0) := by
      have hds4 := drop_shift h0 (length_u32Bytes MANIFEST_MAGIC)
      simp only [Nat.zero_add] at hds4
      exact hds4
    have hv4 : read_u32 (u32Bytes MANIFEST_MAGIC ++
        (u32Bytes MANIFEST_VERSION ++ (encList m.objects ++ u32Bytes 0))) 4 =
        some MANIFEST_VERSION :=
      (read_u32_of_drop h4).trans (congrArg some (by norm_num [MANIFEST_VERSION]))
    exact from_slice_good _ MANIFEST_VERSION hm hv4 (Nat.le_refl _)
  · have hdr := drive_encList m.objects
      (u32Bytes MANIFEST_MAGIC ++ u32Bytes MANIFEST_VERSION) [] fuel (by simp) hv hf
    simpa [List.append_assoc, List.append_nil] using hdr

theorem c1_round_trip_witness :
    validManifest exManifest ∧ exManifest.objects.length < 3 ∧
    (∃ img it, to_image exManifest = Except.ok img ∧ from_slice img = Except.ok it ∧
      List.Forall₂ (objMatches img) exManifest.objects (drive it 3)) :=
  ⟨by decide, by decide, c1_round_trip exManifest (by decide) 3 (by decide)⟩

/-- Claim C2 as stated is false: the 4-byte blob of zero bytes is shorter
than 8 bytes, for which the claim demands MalformedHeader, but from_slice
reads the u32 zero at offset 0, sees a magic mismatch, and returns BadMagic. -/
theorem c2_counterexample :
    ¬ (∀ blob : List Nat, (∀ x ∈ blob, x < 256) → blob.length < 8 →
      from_slice blob = Except.error ManifestError.MalformedHeader) := by
  intro h
  have := h [0, 0, 0, 0] (by decide) (by decide)
  exact absurd this (by decide)

/-- Claim C2, amended: MalformedHeader is returned when a header u32 read
fails, which for a blob shorter than 8 bytes means either the blob is shorter
than 4 bytes or the magic at offset 0 matches; a readable u32 at offset 0
that differs from the magic takes precedence and gives BadMagic; a matching
magic with a readable version greater than 2 gives VersionMismatch; and
otherwise from_slice succeeds with the cursor at 8. -/
theorem c2_header_validation (blob : List Nat) :
    (blob.length < 4 → from_slice blob = Except.error ManifestError.MalformedHeader) ∧
    (∀ mv, read_u32 blob 0 = some mv → mv ≠ MANIFEST_MAGIC →
      from_slice blob = Except.error ManifestError.BadMagic) ∧
    (blob.length < 8 → read_u32 blob 0 = some MANIFEST_MAGIC →
      from_slice blob = Except.error ManifestError.MalformedHeader) ∧
    (∀ ver, read_u32 blob 0 = some MANIFEST_MAGIC → read_u32 blob 4 = some ver →
      MANIFEST_VERSION < ver →
      from_slice blob = Except.error ManifestError.VersionMismatch) ∧
    (∀ ver, read_u32 blob 0 = some MANIFEST_MAGIC → read_u32 blob 4 = some ver →
      ver ≤ MANIFEST_VERSION →
      from_slice blob = Except.ok { offset := 8, bytes := blob }) := by
  refine ⟨fun hshort => ?_, fun mv hmv hne => from_slice_badmagic blob mv hmv hne,
    fun hshort h0 => from_slice_short blob h0 (read_u32_short (by omega)),
    fun ver h0 h4 hgt => from_slice_vm blob ver h0 h4 hgt,
    fun ver h0 h4 hle => from_slice_good blob ver h0 h4 hle⟩
  exact from_slice_none blob (read_u32_short (by omega))

theorem c2_header_validation_witness :
    from_slice [0, 0, 0] = Except.error ManifestError.MalformedHeader ∧
    from_slice [0, 0, 0, 0] = Except.error ManifestError.BadMagic ∧
    from_slice [1, 192, 5, 209, 3, 0, 0, 0] =
      Except.error ManifestError.VersionMismatch ∧
    from_slice [1, 192, 5, 209, 2, 0, 0, 0] =
      Except.ok { offset := 8, bytes := [1, 192, 5, 209, 2, 0, 0, 0] } :=
  ⟨(c2_header_validation [0, 0, 0]).1 (by decide),
   (c2_header_validation [0, 0, 0, 0]).2.1 0 (by decide) (by decide),
   (c2_header_validation [1, 192, 5, 209, 3, 0, 0, 0]).2.2.2.1 3 (by decide) (by decide)
     (by decide),
   (c2_header_validation [1, 192, 5, 209, 2, 0, 0, 0]).2.2.2.2 2 (by decide) (by decide)
     (by decide)⟩

/-- Claim C5: an image made of a well-formed header followed by one complete
object record and nothing further decodes to exactly that object and then
terminates without any error value: the first next call yields the object and
moves the cursor to the end of the image, and the following next call returns
no item, leaving the iterator unchanged. -/
theorem c5_truncated_lenient (o : ManifestObject) (v : List Nat)
    (hd : o.data = ManifestObjectData.Bytes v) (hnm : 0 ∉ o.name) (hds : 0 ∉ o.descr)
    (hpr : ∀ p ∈ o.properties, 0 ∉ p) (hpc : o.properties.length < 4294967296)
    (hvl : v.length < 18446744073709551616)
    (ht : o.objtype ≠ ManifestObjectType.EndOfList) :
    from_slice (u32Bytes MANIFEST_MAGIC ++ (u32Bytes MANIFEST_VERSION ++ encObjA o)) =
      Except.ok (ManifestImageIter.mk 8
        (u32Bytes MANIFEST_MAGIC ++ (u32Bytes MANIFEST_VERSION ++ encObjA o))) ∧
    (∃ o2, ManifestImageIter.next (ManifestImageIter.mk 8
        (u32Bytes MANIFEST_MAGIC ++ (u32Bytes MANIFEST_VERSION ++ encObjA o))) =
        (some o2, ManifestImageIter.mk (8 + (encObjA o).length)
          (u32Bytes MANIFEST_MAGIC ++ (u32Bytes MANIFEST_VERSION ++ encObjA o))) ∧
      objMatches (u32Bytes MANIFEST_MAGIC ++ (u32Bytes MANIFEST_VERSION ++ encObjA o))
        o o2) ∧
    ManifestImageIter.next (ManifestImageIter.mk (8 + (encObjA o).length)
        (u32Bytes MANIFEST_MAGIC ++ (u32Bytes MANIFEST_VERSION ++ encObjA o))) =
      (none, ManifestImageIter.mk (8 + (encObjA o).length)
        (u32Bytes MANIFEST_MAGIC ++ (u32Bytes MANIFEST_VERSION ++ encObjA o))) := by
  have h0 : (u32Bytes MANIFEST_MAGIC ++ (u32Bytes MANIFEST_VERSION ++ encObjA o)).drop 0 =
      u32Bytes MANIFEST_MAGIC ++ (u32Bytes MANIFEST_VERSION ++ encObjA o) :=
    List.drop_zero _
  have hm : read_u32 (u32Bytes MANIFEST_MAGIC ++ (u32Bytes MANIFEST_VERSION ++ encObjA o)) 0 =
      some MANIFEST_MAGIC :=
    (read_u32_of_drop h0).trans (congrArg some (by norm_num [MANIFEST_MAGIC]))
  have h4 : (u32Bytes MANIFEST_MAGIC ++ (u32Bytes MANIFEST_VERSION ++ encObjA o)).drop 4 =
      u32Bytes MANIFEST_VERSION ++ encObjA o := by
    have hds4 := drop_shift h0 (length_u32Bytes MANIFEST_MAGIC)
    simp only [Nat.zero_add] at hds4
    exact hds4
  have hv4 : read_u32 (u32Bytes MANIFEST_MAGIC ++ (u32Bytes MANIFEST_VERSION ++ encObjA o)) 4 =
      some MANIFEST_VERSION :=
    (read_u32_of_drop h4).trans (congrArg some (by norm_num [MANIFEST_VERSION]))
  have h8hdr : (u32Bytes MANIFEST_MAGIC ++ u32Bytes MANIFEST_VERSION).length % 8 = 0 := by
    simp
  have hnx := @next_encObjA (u32Bytes MANIFEST_MAGIC ++ u32Bytes MANIFEST_VERSION) [] o v
    hd hnm hds hpr hpc hvl ht h8hdr
  have hlen : (u32Bytes MANIFEST_MAGIC ++ (u32Bytes MANIFEST_VERSION ++ encObjA o)).length =
      8 + (encObjA o).length := by
    simp only [List.length_append, length_u32Bytes]
    omega
  refine ⟨from_slice_good _ MANIFEST_VERSION hm hv4 (Nat.le_refl _), ?_, ?_⟩
  · refine ⟨⟨o.objtype, o.name, o.descr, o.properties,
        ManifestObjectData.Region (8 + contOff o) (8 + contOff o + v.length)⟩, ?_, ?_⟩
    · have := hnx.1
      simpa [List.append_assoc, List.append_nil] using this
    · refine ⟨rfl, rfl, rfl, rfl, 8 + contOff o, 8 + contOff o + v.length, v, hd, rfl, rfl, ?_⟩
      have := hnx.2
      simpa [List.append_assoc, List.append_nil] using this
  · refine next_read_none ?_
    refine read_u32_short ?_
    show (u32Bytes MANIFEST_MAGIC ++ (u32Bytes MANIFEST_VERSION ++ encObjA o)).length <
      (8 + (encObjA o).length) + 4
    omega

theorem c5_truncated_lenient_witness :
    from_slice c5blob = Except.ok (ManifestImageIter.mk 8 c5blob) ∧
    (∃ o2, ManifestImageIter.next (ManifestImageIter.mk 8 c5blob) =
        (some o2, ManifestImageIter.mk (8 + (encObjA exObj1).length) c5blob) ∧
      objMatches c5blob exObj1 o2) ∧
    ManifestImageIter.next (ManifestImageIter.mk (8 + (encObjA exObj1).length) c5blob) =
      (none, ManifestImageIter.mk (8 + (encObjA exObj1).length) c5blob) :=
  c5_truncated_lenient exObj1 [72, 101] rfl (by decide) (by decide) (by decide) (by decide)
    (by decide) (by decide)

end Dmfs
